import Mathlib

/-!
# The Plural DNS provider (`provider/plural/plural.go`)

A shallow embedding of the provider's read path (`Records`), of the
diff-to-change translation done at the top of `ApplyChanges`, and of the
sequential, fail-fast `applyChanges` loop, together with the properties the
specification states about them.

Conventions of the embedding.

* A Go slice `[]*T` whose elements the code dereferences is a `List T`: the
  pointers are taken to be non-nil.  A nil slice and an empty slice are both
  the empty list.
* A Go `error` result is an `Option GoError`; `none` is `nil`.
* A Go function with several results returns a tuple, so that a client which
  returns a value *and* an error is representable.
* The record client (`*Client`, declared outside `plural.go`) is a parameter:
  a record of three operations over an arbitrary client state `σ`.  The state
  stands for everything a call may depend on or change (the remote store, the
  connection, a script of future failures).
* The `logrus` call in `applyChanges` only writes a log line and is left out,
  and so is the `context.Context` argument, which the code never reads.
-/

namespace Plural

/-! ## Data model -/

/-- A non-nil Go `error` value. -/
structure GoError where
  msg : String
deriving DecidableEq, Repr

/-- The constant `CreateAction`. -/
def CreateAction : String := "c"

/-- The constant `DeleteAction`. -/
def DeleteAction : String := "d"

/-- Modelled from the spec: the type `endpoint.Endpoint` of the framework,
whose declaration is not part of `plural.go`.  The fields `DNSName`,
`RecordType` and `Targets` are the ones `plural.go` reads; the remaining
attributes are carried along and never read by the provider. -/
structure Endpoint where
  DNSName : String
  Targets : List String
  RecordType : String
  SetIdentifier : String
  RecordTTL : Int
  Labels : List (String × String)
  ProviderSpecific : List (String × String)
deriving DecidableEq, Repr, Inhabited

/-- Modelled from the spec: the struct `DnsRecord`, the record shape exchanged
with the client, declared outside `plural.go`.  It has the three fields that
`makeChange` fills in and `Records` reads: `Name`, `Type` and `Records`. -/
structure DnsRecord where
  Name : String
  Type_ : String
  Records : List String
deriving DecidableEq, Repr

/-- The struct `RecordChange`. -/
structure RecordChange where
  Action : String
  Record : DnsRecord
deriving DecidableEq, Repr

/-- Modelled from the spec: the type `plan.Changes` of the framework, declared
outside `plural.go`: the four endpoint lists of a diff. -/
structure Changes where
  Create : List Endpoint
  UpdateOld : List Endpoint
  UpdateNew : List Endpoint
  Delete : List Endpoint
deriving DecidableEq, Repr

/-- Modelled from the spec: the type `Client`, declared outside `plural.go`,
as the three operations the provider calls on it, over a client state `σ`.
`DnsRecords` is the list call, `CreateRecord` the create call (its first
result is discarded by the provider) and `DeleteRecord` the delete call.  The
operations themselves are arbitrary: they are the parameter of every
statement below. -/
structure Client (σ : Type) where
  DnsRecords : σ → (List DnsRecord × Option GoError) × σ
  CreateRecord : DnsRecord → σ → (Option DnsRecord × Option GoError) × σ
  DeleteRecord : String → String → σ → Option GoError × σ

/-- The struct `PluralProvider`: it holds the client. -/
structure PluralProvider (σ : Type) where
  Client : Client σ

/-! ## The provider's operations -/

/-- Go's `strings.HasSuffix`: whether `s` ends in `suffix`. -/
def HasSuffix (s suffix : String) : Bool :=
  suffix.data.isSuffixOf s.data

/-- Go's `strings.TrimSuffix`: `s` without its trailing `suffix`, and `s`
itself when it does not end in `suffix`. -/
def TrimSuffix (s suffix : String) : String :=
  if HasSuffix s suffix then
    String.mk (s.data.take (s.data.length - suffix.data.length))
  else
    s

/-- The framework function `endpoint.NewEndpoint`, which `Records` calls and
which is not part of `plural.go`.  It is written as the framework's `endpoint`
package has it: one trailing dot is removed from the name and from every
target with `strings.TrimSuffix`, the record type is stored as given, and the
other attributes get their zero values.  The specification's "copied
verbatim" holds of it only for names and targets without a trailing dot. -/
def NewEndpoint (dnsName recordType : String) (targets : List String) : Endpoint :=
  Endpoint.mk (TrimSuffix dnsName ".")
    (targets.map (fun target => TrimSuffix target ".")) recordType "" 0 [] []

/-- The loop `for i, record := range records { endpoints[i] = ... }` of
`Records`, started at index `i` on the slice `endpoints`. -/
def fillEndpoints : List DnsRecord → Nat → List Endpoint → List Endpoint
  | [], _, endpoints => endpoints
  | record :: rest, i, endpoints =>
    fillEndpoints rest (i + 1)
      (endpoints.set i (NewEndpoint record.Name record.Type_ record.Records))

/-- The method `PluralProvider.Records`.  The named results start as `nil`; when the list
call fails the function returns at once with `endpoints` still `nil`.
Otherwise a slice of `len(records)` slots is made (a slot not yet written is
shown here as the zero endpoint) and every slot is assigned by the loop. -/
def PluralProvider.Records {σ : Type} (p : PluralProvider σ) (s : σ) :
    (List Endpoint × Option GoError) × σ :=
  let out := p.Client.DnsRecords s
  let records := out.1.1
  match out.1.2 with
  | some err => (([], some err), out.2)
  | none =>
    ((fillEndpoints records 0 (List.replicate records.length default), none), out.2)

/-- The method `PluralProvider.AdjustEndpoints`. -/
def PluralProvider.AdjustEndpoints {σ : Type} (_p : PluralProvider σ)
    (endpoints : List Endpoint) : List Endpoint :=
  endpoints

/-- The function `makeChange`. -/
def makeChange (change : String) (target : List String) (endpoint : Endpoint) :
    RecordChange :=
  RecordChange.mk change (DnsRecord.mk endpoint.DNSName endpoint.RecordType target)

/-- The first part of `ApplyChanges`: the slice `changes` after the three
`append` loops over `diffs.Create`, `diffs.UpdateNew` and `diffs.Delete`. -/
def buildChanges (diffs : Changes) : List RecordChange :=
  let changes : List RecordChange := []
  let changes := diffs.Create.foldl
    (fun changes endpoint =>
      changes ++ [makeChange CreateAction endpoint.Targets endpoint]) changes
  let changes := diffs.UpdateNew.foldl
    (fun changes desired =>
      changes ++ [makeChange CreateAction desired.Targets desired]) changes
  let changes := diffs.Delete.foldl
    (fun changes deleted =>
      changes ++ [makeChange DeleteAction [] deleted]) changes
  changes

/-- The first `if` of the loop body of `applyChanges`: the create call, made
when the action is `CreateAction`.  The result is the error to return (if
any) and the client state after the step. -/
def createStep {σ : Type} (p : PluralProvider σ) (change : RecordChange) (s : σ) :
    Option GoError × σ :=
  if change.Action = CreateAction then
    let out := p.Client.CreateRecord change.Record s
    (out.1.2, out.2)
  else
    (none, s)

/-- The second `if` of the loop body of `applyChanges`: the delete call, made
when the action is `DeleteAction`. -/
def deleteStep {σ : Type} (p : PluralProvider σ) (change : RecordChange) (s : σ) :
    Option GoError × σ :=
  if change.Action = DeleteAction then
    p.Client.DeleteRecord change.Record.Name change.Record.Type_ s
  else
    (none, s)

/-- The method `PluralProvider.applyChanges`: the changes are taken in order; the first
non-nil error of a client call is returned at once. -/
def PluralProvider.applyChanges {σ : Type} (p : PluralProvider σ) :
    List RecordChange → σ → Option GoError × σ
  | [], s => (none, s)
  | change :: rest, s =>
    match createStep p change s with
    | (some err, s1) => (some err, s1)
    | (none, s1) =>
      match deleteStep p change s1 with
      | (some err, s2) => (some err, s2)
      | (none, s2) => PluralProvider.applyChanges p rest s2

/-- The method `PluralProvider.ApplyChanges`: the change list is built and
handed to `applyChanges`. -/
def PluralProvider.ApplyChanges {σ : Type} (p : PluralProvider σ) (diffs : Changes)
    (s : σ) : Option GoError × σ :=
  p.applyChanges (buildChanges diffs) s

/-- Modelled from the spec: `BaseProvider.PropertyValuesEqual`, a method of
the framework's `provider` package that is not under `src/`.  Following the
specification it is "the framework's default string-equality comparison": the
property name is not looked at and the two values are compared as strings. -/
def BaseProvider.PropertyValuesEqual (_name previous current : String) : Bool :=
  previous == current

/-- The method `PluralProvider.PropertyValuesEqual`: the call is passed to the
embedded `BaseProvider`. -/
def PluralProvider.PropertyValuesEqual {σ : Type} (_p : PluralProvider σ)
    (name previous current : String) : Bool :=
  BaseProvider.PropertyValuesEqual name previous current

/-- Modelled from the spec: the struct `Config`, declared outside `plural.go`,
with the four fields that `NewPluralProvider` fills in. -/
structure Config where
  Token : String
  Endpoint : String
  Cluster : String
  Provider : String
deriving DecidableEq, Repr

/-- The error that `NewPluralProvider` builds with `fmt.Errorf` when there is
no access token. -/
def missingTokenError : GoError :=
  GoError.mk
    "No plural access token provided, you must set the PLURAL_ACCESS_TOKEN env var"

/-- The function `NewPluralProvider`.  The environment lookup `os.Getenv` and
the client constructor `NewClient` (declared outside `plural.go`) are
parameters; `NewClient` runs over a state `τ` of its own, which stands for
whatever constructing a client may touch.  The results are the provider
(`none` for the nil pointer) and the error. -/
def NewPluralProvider {σ τ : Type} (getenv : String → String)
    (NewClient : Config → τ → Client σ × τ) (cluster provider : String) (t : τ) :
    (Option (PluralProvider σ) × Option GoError) × τ :=
  let token := getenv "PLURAL_ACCESS_TOKEN"
  let endpoint := getenv "PLURAL_ENDPOINT"
  if token = "" then
    ((none, some missingTokenError), t)
  else
    let config := Config.mk token endpoint cluster provider
    let out := NewClient config t
    let prov := PluralProvider.mk out.1
    ((some prov, none), out.2)

/-! ## Observing the client calls -/

/-- One call made on the client, with its arguments. -/
inductive Call where
  | list
  | create (record : DnsRecord)
  | delete (name type_ : String)
deriving DecidableEq, Repr

/-- What a call returns as error, and the client state it leaves. -/
def Call.perform {σ : Type} (c : Client σ) : Call → σ → Option GoError × σ
  | Call.list, s => ((c.DnsRecords s).1.2, (c.DnsRecords s).2)
  | Call.create record, s => ((c.CreateRecord record s).1.2, (c.CreateRecord record s).2)
  | Call.delete name type_, s => c.DeleteRecord name type_ s

/-- The client state after a sequence of calls made one after the other. -/
def stateAfter {σ : Type} (c : Client σ) (calls : List Call) (s : σ) : σ :=
  calls.foldl (fun s call => (call.perform c s).2) s

/-- The client `c` with a journal: every call is passed to `c` unchanged and
appended, with its arguments, to the list of calls made so far. -/
def Client.recording {σ : Type} (c : Client σ) : Client (σ × List Call) :=
  Client.mk
    (fun st => ((c.DnsRecords st.1).1, ((c.DnsRecords st.1).2, st.2 ++ [Call.list])))
    (fun record st =>
      ((c.CreateRecord record st.1).1,
        ((c.CreateRecord record st.1).2, st.2 ++ [Call.create record])))
    (fun name type_ st =>
      ((c.DeleteRecord name type_ st.1).1,
        ((c.DeleteRecord name type_ st.1).2, st.2 ++ [Call.delete name type_])))

/-- The provider whose client is the journalled client. -/
def PluralProvider.recording {σ : Type} (p : PluralProvider σ) :
    PluralProvider (σ × List Call) :=
  PluralProvider.mk p.Client.recording

/-- The client call the specification prescribes for a change:
`CreateRecord(record)` for a create change, `DeleteRecord(name, type)`
otherwise (used for lists of create and delete changes only). -/
def expectedCall (change : RecordChange) : Call :=
  if change.Action = CreateAction then Call.create change.Record
  else Call.delete change.Record.Name change.Record.Type_

/-- A change list of create and delete changes. -/
def CreateOrDelete (changes : List RecordChange) : Prop :=
  ∀ change ∈ changes, change.Action = CreateAction ∨ change.Action = DeleteAction

/-- Every call of the list succeeds when the calls are made one after the
other from the client state `s`. -/
def CallsSucceed {σ : Type} (c : Client σ) (calls : List Call) (s : σ) : Prop :=
  ∀ (j : Nat) (call : Call), calls[j]? = some call →
    (call.perform c (stateAfter c (calls.take j) s)).1 = none

/-- The call at position `k` is the first one that returns an error, and the
error is `e`, when the calls are made one after the other from `s`. -/
def FirstFailureAt {σ : Type} (c : Client σ) (calls : List Call) (s : σ) (k : Nat)
    (e : GoError) : Prop :=
  CallsSucceed c (calls.take k) s ∧
    ∃ call : Call, calls[k]? = some call ∧
      (call.perform c (stateAfter c (calls.take k) s)).1 = some e

/-- The create change the specification prescribes for an endpoint. -/
def createChange (e : Endpoint) : RecordChange :=
  RecordChange.mk CreateAction (DnsRecord.mk e.DNSName e.RecordType e.Targets)

/-- The delete change the specification prescribes for an endpoint. -/
def deleteChange (e : Endpoint) : RecordChange :=
  RecordChange.mk DeleteAction (DnsRecord.mk e.DNSName e.RecordType [])

/-- Two changes are the same, or are two delete changes for the same name and
type (their target lists may differ). -/
def SameButDeleteTargets (a b : RecordChange) : Prop :=
  a = b ∨
    (a.Action = DeleteAction ∧ b.Action = DeleteAction ∧
      a.Record.Name = b.Record.Name ∧ a.Record.Type_ = b.Record.Type_)

/-- Two endpoints agree on name, record type and targets (their other
attributes may differ). -/
def SameRecordData (a b : Endpoint) : Prop :=
  a.DNSName = b.DNSName ∧ a.RecordType = b.RecordType ∧ a.Targets = b.Targets

/-- A change whose action is neither `CreateAction` nor `DeleteAction`. -/
def OtherAction (change : RecordChange) : Prop :=
  change.Action ≠ CreateAction ∧ change.Action ≠ DeleteAction

/-! ## Example data -/

/-- The record of the specification's example. -/
def exampleRecord : DnsRecord :=
  DnsRecord.mk "a.example.com" "A" ["1.2.3.4"]

/-- A client over a call counter.  Every call advances the counter; the call
made when the counter is `k` fails with the error `boom`, every other call
succeeds.  The list call hands back `exampleRecord` even when it fails. -/
def failingAt (k : Nat) : Client Nat :=
  Client.mk
    (fun n => (([exampleRecord], if n = k then some (GoError.mk "boom") else none), n + 1))
    (fun record n =>
      ((if n = k then none else some record,
        if n = k then some (GoError.mk "boom") else none), n + 1))
    (fun _ _ n => (if n = k then some (GoError.mk "boom") else none, n + 1))

/-- An endpoint `a.example.com A 1.2.3.4` with a TTL and a label. -/
def endpointA : Endpoint :=
  Endpoint.mk "a.example.com" ["1.2.3.4"] "A" "" 300 [("owner", "default")] []

/-- An endpoint `b.example.com CNAME a.example.com`. -/
def endpointB : Endpoint :=
  Endpoint.mk "b.example.com" ["a.example.com"] "CNAME" "" 0 [] []

/-- The endpoint `a.example.com A` again, with another target. -/
def endpointA2 : Endpoint :=
  Endpoint.mk "a.example.com" ["5.6.7.8"] "A" "" 0 [] []

/-- Three changes: create `a`, delete `b`, create `a` with a new target. -/
def exampleChanges : List RecordChange :=
  [RecordChange.mk "c" (DnsRecord.mk "a.example.com" "A" ["1.2.3.4"]),
   RecordChange.mk "d" (DnsRecord.mk "b.example.com" "CNAME" ["a.example.com"]),
   RecordChange.mk "c" (DnsRecord.mk "a.example.com" "A" ["5.6.7.8"])]

/-- A diff that deletes an endpoint carrying targets. -/
def deleteDiff : Changes :=
  Changes.mk [] [] [] [endpointB]

/-- A diff whose `Create`, `UpdateNew` and `Delete` are empty. -/
def idleDiff : Changes :=
  Changes.mk [] [endpointA] [] []

/-- A diff that creates and deletes the same name and type. -/
def clashDiff : Changes :=
  Changes.mk [endpointA] [] [] [endpointA2]

/-- The endpoint `a.example.com A 1.2.3.4` with other attributes than
`endpointA`: a set identifier, another TTL, no label, a provider property. -/
def endpointA3 : Endpoint :=
  Endpoint.mk "a.example.com" ["1.2.3.4"] "A" "blue" 60 [] [("alias", "true")]

/-- The example changes with another target list on the delete change. -/
def exampleChangesBare : List RecordChange :=
  [RecordChange.mk "c" (DnsRecord.mk "a.example.com" "A" ["1.2.3.4"]),
   RecordChange.mk "d" (DnsRecord.mk "b.example.com" "CNAME" []),
   RecordChange.mk "c" (DnsRecord.mk "a.example.com" "A" ["5.6.7.8"])]

/-- A diff that updates `a.example.com A` from `1.2.3.4` to `5.6.7.8`. -/
def updateDiff : Changes :=
  Changes.mk [] [endpointA] [endpointA2] []

/-- The same update with another old side. -/
def updateDiffOld : Changes :=
  Changes.mk [] [endpointB, endpointA3] [endpointA2] []

/-- A diff with one create and two deletes. -/
def mixedDiff : Changes :=
  Changes.mk [endpointA] [] [] [endpointB, endpointA2]

/-- A diff with one endpoint in each of `Create`, `UpdateNew` and `Delete`. -/
def fullDiff : Changes :=
  Changes.mk [endpointA] [endpointB] [endpointA2] [endpointB]

/-- The diff `fullDiff` with other attributes on the created endpoint. -/
def fullDiffOther : Changes :=
  Changes.mk [endpointA3] [endpointB] [endpointA2] [endpointB]

/-- Two changes with actions the provider does not know. -/
def unknownChanges : List RecordChange :=
  [RecordChange.mk "u" (DnsRecord.mk "a.example.com" "A" ["1.2.3.4"]),
   RecordChange.mk "" (DnsRecord.mk "b.example.com" "CNAME" [])]

/-- An environment with a token and an endpoint URL. -/
def envWithToken (name : String) : String :=
  if name = "PLURAL_ACCESS_TOKEN" then "secret"
  else if name = "PLURAL_ENDPOINT" then "https://app.plural.sh" else ""

/-- An environment with an endpoint URL and no token. -/
def envWithoutToken (name : String) : String :=
  if name = "PLURAL_ENDPOINT" then "https://app.plural.sh" else ""

/-- A client constructor that notes every configuration it is called with and
hands back the client `failingAt 5`. -/
def notingNewClient (config : Config) (seen : List Config) : Client Nat × List Config :=
  (failingAt 5, seen ++ [config])

/-- A record in fully qualified form: the name and the target end in a dot. -/
def dottedRecord : DnsRecord :=
  DnsRecord.mk "www.example.com." "CNAME" ["lb.example.net."]

/-- A client whose list call succeeds with the given records and whose other
calls succeed. -/
def listingClient (records : List DnsRecord) : Client Nat :=
  Client.mk
    (fun n => ((records, none), n + 1))
    (fun record n => ((some record, none), n + 1))
    (fun _ _ n => (none, n + 1))

/-! ## Auxiliary facts -/

theorem foldl_append_singleton {α β : Type} (f : α → β) (l : List α) (init : List β) :
    l.foldl (fun acc x => acc ++ [f x]) init = init ++ l.map f := by
  induction l generalizing init with
  | nil => simp
  | cons x xs ih => simp [ih]

theorem buildChanges_eq (diffs : Changes) :
    buildChanges diffs =
      diffs.Create.map createChange ++ diffs.UpdateNew.map createChange ++
        diffs.Delete.map deleteChange := by
  unfold buildChanges
  simp only [foldl_append_singleton, List.nil_append]
  rfl

theorem fillEndpoints_eq (records : List DnsRecord) (done slots : List Endpoint)
    (h : slots.length = records.length) :
    fillEndpoints records done.length (done ++ slots) =
      done ++ records.map (fun r => NewEndpoint r.Name r.Type_ r.Records) := by
  induction records generalizing done slots with
  | nil =>
    cases slots with
    | nil => simp [fillEndpoints]
    | cons x xs => simp at h
  | cons r rs ih =>
    cases slots with
    | nil => simp at h
    | cons x xs =>
      simp only [List.length_cons, Nat.add_right_cancel_iff] at h
      have hset : (done ++ x :: xs).set done.length (NewEndpoint r.Name r.Type_ r.Records)
          = (done ++ [NewEndpoint r.Name r.Type_ r.Records]) ++ xs := by
        simp [List.set_append]
      have hlen : done.length + 1 = (done ++ [NewEndpoint r.Name r.Type_ r.Records]).length := by
        simp
      rw [fillEndpoints, hset, hlen, ih _ _ h]
      simp

theorem createAction_ne_deleteAction : CreateAction ≠ DeleteAction := by
  decide

theorem perform_recording {σ : Type} (c : Client σ) (call : Call) (s : σ)
    (log : List Call) :
    call.perform c.recording (s, log) =
      ((call.perform c s).1, ((call.perform c s).2, log ++ [call])) := by
  cases call <;> rfl

theorem stateAfter_cons {σ : Type} (c : Client σ) (call : Call) (calls : List Call)
    (s : σ) :
    stateAfter c (call :: calls) s = stateAfter c calls (call.perform c s).2 := by
  rfl

theorem applyChanges_cons_expected {σ : Type} (p : PluralProvider σ)
    (change : RecordChange) (rest : List RecordChange) (s : σ)
    (h : change.Action = CreateAction ∨ change.Action = DeleteAction) :
    p.applyChanges (change :: rest) s =
      match (expectedCall change).perform p.Client s with
      | (some err, s1) => (some err, s1)
      | (none, s1) => p.applyChanges rest s1 := by
  rcases h with h | h
  · have hd : ¬ change.Action = DeleteAction := by
      rw [h]; exact createAction_ne_deleteAction
    simp only [PluralProvider.applyChanges, createStep, deleteStep, expectedCall, h, hd,
      if_true, if_false, Call.perform]
    split <;> simp_all
  · have hc : ¬ DeleteAction = CreateAction :=
      fun hh => createAction_ne_deleteAction hh.symm
    simp only [PluralProvider.applyChanges, createStep, deleteStep, expectedCall, h, hc,
      if_true, if_false, Call.perform]

theorem callsSucceed_tail {σ : Type} (c : Client σ) (call : Call) (calls : List Call)
    (s : σ) (h : CallsSucceed c (call :: calls) s) :
    CallsSucceed c calls (call.perform c s).2 := by
  intro j cl hj
  have := h (j + 1) cl (by simpa using hj)
  simpa [stateAfter_cons] using this

theorem callsSucceed_head {σ : Type} (c : Client σ) (call : Call) (calls : List Call)
    (s : σ) (h : CallsSucceed c (call :: calls) s) :
    (call.perform c s).1 = none := by
  have := h 0 call (by simp)
  simpa [stateAfter] using this

theorem applyChanges_recording_success {σ : Type} (p : PluralProvider σ)
    (changes : List RecordChange) (s : σ) (log : List Call)
    (hcd : CreateOrDelete changes)
    (hs : CallsSucceed p.Client (changes.map expectedCall) s) :
    p.recording.applyChanges changes (s, log) =
      (none, (stateAfter p.Client (changes.map expectedCall) s,
        log ++ changes.map expectedCall)) := by
  induction changes generalizing s log with
  | nil => simp [PluralProvider.applyChanges, stateAfter]
  | cons change rest ih =>
    have hhead := callsSucceed_head _ _ _ _ hs
    have htail := callsSucceed_tail _ _ _ _ hs
    have hrest : CreateOrDelete rest := fun ch hch => hcd ch (List.mem_cons_of_mem _ hch)
    rw [applyChanges_cons_expected _ _ _ _ (hcd change (List.mem_cons_self _ _))]
    simp only [PluralProvider.recording, perform_recording, hhead]
    have := ih (expectedCall change |>.perform p.Client s).2 (log ++ [expectedCall change])
      hrest htail
    simp only [PluralProvider.recording] at this
    rw [this]
    simp [stateAfter_cons]

theorem applyChanges_recording_failure {σ : Type} (p : PluralProvider σ)
    (changes : List RecordChange) (s : σ) (log : List Call) (k : Nat) (e : GoError)
    (hcd : CreateOrDelete changes)
    (hf : FirstFailureAt p.Client (changes.map expectedCall) s k e) :
    p.recording.applyChanges changes (s, log) =
      (some e, (stateAfter p.Client ((changes.map expectedCall).take (k + 1)) s,
        log ++ (changes.map expectedCall).take (k + 1))) := by
  induction changes generalizing s log k with
  | nil =>
    obtain ⟨_, call, hcall, _⟩ := hf
    simp at hcall
  | cons change rest ih =>
    have hrest : CreateOrDelete rest := fun ch hch => hcd ch (List.mem_cons_of_mem _ hch)
    rw [applyChanges_cons_expected _ _ _ _ (hcd change (List.mem_cons_self _ _))]
    cases k with
    | zero =>
      obtain ⟨_, call, hcall, herr⟩ := hf
      simp only [List.map_cons, List.getElem?_cons_zero, Option.some.injEq] at hcall
      subst hcall
      simp only [List.take_zero, stateAfter, List.foldl_nil] at herr
      simp only [PluralProvider.recording, perform_recording, herr]
      simp [stateAfter]
    | succ k =>
      obtain ⟨hpre, call, hcall, herr⟩ := hf
      simp only [List.map_cons, List.take_succ_cons] at hpre
      have hhead := callsSucceed_head _ _ _ _ hpre
      have htail := callsSucceed_tail _ _ _ _ hpre
      simp only [List.map_cons, List.getElem?_cons_succ] at hcall
      simp only [List.map_cons, List.take_succ_cons, stateAfter_cons] at herr
      have hf2 : FirstFailureAt p.Client (rest.map expectedCall)
          ((expectedCall change).perform p.Client s).2 k e := ⟨htail, call, hcall, herr⟩
      have := ih ((expectedCall change).perform p.Client s).2 (log ++ [expectedCall change])
        k hrest hf2
      simp only [PluralProvider.recording] at this
      simp only [PluralProvider.recording, perform_recording, hhead]
      rw [this]
      simp [stateAfter_cons]

theorem createStep_recording {σ : Type} (p : PluralProvider σ) (change : RecordChange)
    (s : σ) (log : List Call) :
    createStep p.recording change (s, log) =
      ((createStep p change s).1, ((createStep p change s).2,
        log ++ if change.Action = CreateAction then [Call.create change.Record] else [])) := by
  unfold createStep
  by_cases h : change.Action = CreateAction <;>
    simp [h, PluralProvider.recording, Client.recording]

theorem deleteStep_recording {σ : Type} (p : PluralProvider σ) (change : RecordChange)
    (s : σ) (log : List Call) :
    deleteStep p.recording change (s, log) =
      ((deleteStep p change s).1, ((deleteStep p change s).2,
        log ++ if change.Action = DeleteAction
          then [Call.delete change.Record.Name change.Record.Type_] else [])) := by
  unfold deleteStep
  by_cases h : change.Action = DeleteAction <;>
    simp [h, PluralProvider.recording, Client.recording]

theorem applyChanges_recording_transparent {σ : Type} (p : PluralProvider σ)
    (changes : List RecordChange) (s : σ) (log : List Call) :
    p.applyChanges changes s =
      ((p.recording.applyChanges changes (s, log)).1,
        (p.recording.applyChanges changes (s, log)).2.1) := by
  induction changes generalizing s log with
  | nil => simp [PluralProvider.applyChanges]
  | cons change rest ih =>
    simp only [PluralProvider.applyChanges, createStep_recording]
    rcases h1 : createStep p change s with ⟨r1, s1⟩
    cases r1 with
    | some err => simp
    | none =>
      simp only [deleteStep_recording]
      rcases h2 : deleteStep p change s1 with ⟨r2, s2⟩
      cases r2 with
      | some err => simp
      | none => exact ih _ _

theorem createOrDelete_buildChanges (diffs : Changes) :
    CreateOrDelete (buildChanges diffs) := by
  intro change hmem
  rw [buildChanges_eq] at hmem
  simp only [List.mem_append, List.mem_map] at hmem
  rcases hmem with (⟨e, _, rfl⟩ | ⟨e, _, rfl⟩) | ⟨e, _, rfl⟩
  · exact Or.inl rfl
  · exact Or.inl rfl
  · exact Or.inr rfl

theorem expectedCall_createChange (e : Endpoint) :
    expectedCall (createChange e) =
      Call.create (DnsRecord.mk e.DNSName e.RecordType e.Targets) := by
  simp [expectedCall, createChange]

theorem expectedCall_deleteChange (e : Endpoint) :
    expectedCall (deleteChange e) = Call.delete e.DNSName e.RecordType := by
  have h : ¬ DeleteAction = CreateAction := fun hh => createAction_ne_deleteAction hh.symm
  simp [expectedCall, deleteChange, h]

theorem records_eq_map {σ : Type} (p : PluralProvider σ) (s : σ)
    (h : (p.Client.DnsRecords s).1.2 = none) :
    (p.Records s).1.1 =
      (p.Client.DnsRecords s).1.1.map (fun r => NewEndpoint r.Name r.Type_ r.Records) := by
  have hfill := fillEndpoints_eq (p.Client.DnsRecords s).1.1 []
    (List.replicate (p.Client.DnsRecords s).1.1.length default) (by simp)
  simp only [List.length_nil, List.nil_append] at hfill
  simp only [PluralProvider.Records, h, hfill]

theorem exampleChanges_createOrDelete : CreateOrDelete exampleChanges := by
  unfold CreateOrDelete
  decide

theorem exampleChanges_succeed_on_failingAt_five :
    CallsSucceed (failingAt 5) (exampleChanges.map expectedCall) 0 := by
  intro j call hj
  rcases j with _ | _ | _ | j
  · cases hj; rfl
  · cases hj; rfl
  · cases hj; rfl
  · simp [exampleChanges] at hj

theorem exampleChanges_fail_second_on_failingAt_one :
    FirstFailureAt (failingAt 1) (exampleChanges.map expectedCall) 0 1
      (GoError.mk "boom") := by
  refine ⟨?_, Call.delete "b.example.com" "CNAME", rfl, rfl⟩
  intro j call hj
  rcases j with _ | j
  · cases hj; rfl
  · simp [exampleChanges] at hj

theorem clashDiff_succeeds_on_failingAt_five :
    CallsSucceed (failingAt 5) ((buildChanges clashDiff).map expectedCall) 0 := by
  intro j call hj
  rcases j with _ | _ | j
  · cases hj; rfl
  · cases hj; rfl
  · simp [buildChanges_eq, clashDiff] at hj

theorem applyChanges_append {σ : Type} (p : PluralProvider σ)
    (xs ys : List RecordChange) (s : σ) :
    p.applyChanges (xs ++ ys) s =
      match p.applyChanges xs s with
      | (some err, s1) => (some err, s1)
      | (none, s1) => p.applyChanges ys s1 := by
  induction xs generalizing s with
  | nil => simp [PluralProvider.applyChanges]
  | cons x xs ih =>
    simp only [List.cons_append, PluralProvider.applyChanges]
    rcases h1 : createStep p x s with ⟨r1, s1⟩
    cases r1 with
    | some err => simp
    | none =>
      simp only
      rcases h2 : deleteStep p x s1 with ⟨r2, s2⟩
      cases r2 with
      | some err => simp
      | none => exact ih s2

theorem applyChanges_skip {σ : Type} (p : PluralProvider σ) (change : RecordChange)
    (rest : List RecordChange) (s : σ) (h : OtherAction change) :
    p.applyChanges (change :: rest) s = p.applyChanges rest s := by
  simp [PluralProvider.applyChanges, createStep, deleteStep, h.1, h.2]

theorem applyChanges_skip_all {σ : Type} (p : PluralProvider σ)
    (skipped rest : List RecordChange) (s : σ)
    (h : ∀ change ∈ skipped, OtherAction change) :
    p.applyChanges (skipped ++ rest) s = p.applyChanges rest s := by
  induction skipped with
  | nil => rfl
  | cons x xs ih =>
    rw [List.cons_append, applyChanges_skip p x _ s (h x (List.mem_cons_self _ _))]
    exact ih (fun ch hch => h ch (List.mem_cons_of_mem _ hch))

theorem applyChanges_skip_inside {σ : Type} (p : PluralProvider σ)
    (before skipped rest : List RecordChange) (s : σ)
    (h : ∀ change ∈ skipped, OtherAction change) :
    p.applyChanges (before ++ skipped ++ rest) s = p.applyChanges (before ++ rest) s := by
  rw [List.append_assoc, applyChanges_append, applyChanges_append p before rest]
  rcases p.applyChanges before s with ⟨r, s1⟩
  cases r with
  | some err => rfl
  | none => exact applyChanges_skip_all p skipped rest s1 h

theorem applyChanges_same_but_delete_targets {σ : Type} (p : PluralProvider σ)
    (xs ys : List RecordChange) (s : σ)
    (h : List.Forall₂ SameButDeleteTargets xs ys) :
    p.applyChanges xs s = p.applyChanges ys s := by
  induction h generalizing s with
  | nil => rfl
  | @cons a b as bs hab _ ih =>
    have hc : createStep p a s = createStep p b s := by
      rcases hab with rfl | ⟨ha, hb, _, _⟩
      · rfl
      · have hne : ¬ DeleteAction = CreateAction :=
          fun hh => createAction_ne_deleteAction hh.symm
        simp [createStep, ha, hb, hne]
    have hd : ∀ s1, deleteStep p a s1 = deleteStep p b s1 := by
      intro s1
      rcases hab with rfl | ⟨ha, hb, hn, ht⟩
      · rfl
      · simp [deleteStep, ha, hb, hn, ht]
    simp only [PluralProvider.applyChanges, hc, hd, ih]

theorem map_eq_of_related {α β : Type} (R : α → α → Prop) (f : α → β)
    (hf : ∀ a b, R a b → f a = f b) (l1 l2 : List α) (h : List.Forall₂ R l1 l2) :
    l1.map f = l2.map f := by
  induction h with
  | nil => rfl
  | cons hab _ ih => simp [hf _ _ hab, ih]

theorem no_delete_before_create (cs ds : List RecordChange)
    (hcs : ∀ c ∈ cs, c.Action = CreateAction) (hds : ∀ d ∈ ds, d.Action = DeleteAction)
    (i j : Nat) (a b : RecordChange) (hij : i < j)
    (ha : (cs ++ ds)[i]? = some a) (hb : (cs ++ ds)[j]? = some b)
    (hdel : a.Action = DeleteAction) : b.Action = DeleteAction := by
  by_cases hi : i < cs.length
  · rw [List.getElem?_append_left hi] at ha
    have := hcs a (List.getElem?_mem ha)
    rw [this] at hdel
    exact absurd hdel createAction_ne_deleteAction
  · have hj : cs.length ≤ j := by omega
    rw [List.getElem?_append_right hj] at hb
    exact hds b (List.getElem?_mem hb)

theorem trimSuffix_of_not_hasSuffix (s suffix : String)
    (h : HasSuffix s suffix = false) : TrimSuffix s suffix = s := by
  simp [TrimSuffix, h]

theorem map_trimSuffix_of_not_hasSuffix (l : List String) (suffix : String)
    (h : ∀ t ∈ l, HasSuffix t suffix = false) :
    l.map (fun t => TrimSuffix t suffix) = l := by
  induction l with
  | nil => rfl
  | cons x xs ih =>
    rw [List.map_cons, trimSuffix_of_not_hasSuffix x suffix (h x (List.mem_cons_self _ _)),
      ih (fun t ht => h t (List.mem_cons_of_mem _ ht))]

/-! ## The claims -/

/-- C1: the change list that `ApplyChanges` builds is one create change (name,
type and targets of the endpoint) per endpoint of `Create` in order, then one
create change per endpoint of `UpdateNew` in order, then one delete change
(name and type, empty target list) per endpoint of `Delete` in order; and it
is this list that `ApplyChanges` hands to `applyChanges`. -/
theorem applyChanges_builds_creates_updates_deletes {σ : Type} (p : PluralProvider σ)
    (diffs : Changes) (s : σ) :
    buildChanges diffs =
        diffs.Create.map
            (fun e => RecordChange.mk CreateAction
              (DnsRecord.mk e.DNSName e.RecordType e.Targets)) ++
          diffs.UpdateNew.map
            (fun e => RecordChange.mk CreateAction
              (DnsRecord.mk e.DNSName e.RecordType e.Targets)) ++
          diffs.Delete.map
            (fun e => RecordChange.mk DeleteAction
              (DnsRecord.mk e.DNSName e.RecordType [])) ∧
      p.ApplyChanges diffs s =
        p.applyChanges
          (diffs.Create.map createChange ++ diffs.UpdateNew.map createChange ++
            diffs.Delete.map deleteChange) s := by
  constructor
  · exact buildChanges_eq diffs
  · rw [PluralProvider.ApplyChanges, buildChanges_eq]

/-- C2: on a list of create and delete changes, if the call for the change at
position `k` is the first one that returns an error, `applyChanges` returns
that error, and the calls made on the client are exactly the calls for the
positions `0..k`, once each and in list order: nothing is called for a later
change, and nothing is retried or undone. -/
theorem applyChanges_stops_at_first_error {σ : Type} (p : PluralProvider σ)
    (changes : List RecordChange) (s : σ) (k : Nat) (e : GoError)
    (hcd : CreateOrDelete changes)
    (hf : FirstFailureAt p.Client (changes.map expectedCall) s k e) :
    p.recording.applyChanges changes (s, []) =
        (some e, (stateAfter p.Client ((changes.take (k + 1)).map expectedCall) s,
          (changes.take (k + 1)).map expectedCall)) ∧
      p.applyChanges changes s =
        (some e, stateAfter p.Client ((changes.take (k + 1)).map expectedCall) s) := by
  have h := applyChanges_recording_failure p changes s [] k e hcd hf
  simp only [List.nil_append, ← List.map_take] at h
  refine ⟨h, ?_⟩
  rw [applyChanges_recording_transparent p changes s [], h]


/-- Witness for C2: with the three example changes and a client whose second
call fails, the first two calls are made, the third is not, and the error of
the second call is returned. -/
theorem applyChanges_stops_at_first_error_witness :
    CreateOrDelete exampleChanges ∧
      FirstFailureAt (failingAt 1) (exampleChanges.map expectedCall) 0 1
        (GoError.mk "boom") ∧
      (PluralProvider.mk (failingAt 1)).recording.applyChanges exampleChanges (0, []) =
        (some (GoError.mk "boom"),
          (2, [Call.create (DnsRecord.mk "a.example.com" "A" ["1.2.3.4"]),
            Call.delete "b.example.com" "CNAME"])) ∧
      (PluralProvider.mk (failingAt 1)).applyChanges exampleChanges 0 =
        (some (GoError.mk "boom"), 2) :=
  ⟨exampleChanges_createOrDelete, exampleChanges_fail_second_on_failingAt_one,
    applyChanges_stops_at_first_error (PluralProvider.mk (failingAt 1)) exampleChanges 0 1
      (GoError.mk "boom") exampleChanges_createOrDelete
      exampleChanges_fail_second_on_failingAt_one⟩

/-- C3: on a list of create and delete changes, if every client call succeeds,
`applyChanges` returns no error and the calls made are exactly one per change,
in list order: `CreateRecord(record)` for a create change and
`DeleteRecord(record.name, record.type)` for a delete change. -/
theorem applyChanges_all_succeed {σ : Type} (p : PluralProvider σ)
    (changes : List RecordChange) (s : σ)
    (hcd : CreateOrDelete changes)
    (hs : CallsSucceed p.Client (changes.map expectedCall) s) :
    p.recording.applyChanges changes (s, []) =
        (none, (stateAfter p.Client (changes.map expectedCall) s,
          changes.map
            (fun change =>
              if change.Action = CreateAction then Call.create change.Record
              else Call.delete change.Record.Name change.Record.Type_))) ∧
      p.applyChanges changes s =
        (none, stateAfter p.Client (changes.map expectedCall) s) := by
  have h := applyChanges_recording_success p changes s [] hcd hs
  simp only [List.nil_append] at h
  refine ⟨h, ?_⟩
  rw [applyChanges_recording_transparent p changes s [], h]


/-- Witness for C3: with the three example changes and a client whose first
five calls succeed, three calls are made, one per change and in order. -/
theorem applyChanges_all_succeed_witness :
    CreateOrDelete exampleChanges ∧
      CallsSucceed (failingAt 5) (exampleChanges.map expectedCall) 0 ∧
      (PluralProvider.mk (failingAt 5)).recording.applyChanges exampleChanges (0, []) =
        (none,
          (3, [Call.create (DnsRecord.mk "a.example.com" "A" ["1.2.3.4"]),
            Call.delete "b.example.com" "CNAME",
            Call.create (DnsRecord.mk "a.example.com" "A" ["5.6.7.8"])])) ∧
      (PluralProvider.mk (failingAt 5)).applyChanges exampleChanges 0 = (none, 3) :=
  ⟨exampleChanges_createOrDelete, exampleChanges_succeed_on_failingAt_five,
    applyChanges_all_succeed (PluralProvider.mk (failingAt 5)) exampleChanges 0
      exampleChanges_createOrDelete exampleChanges_succeed_on_failingAt_five⟩

/-- C4, as the specification states it, fails: the list call succeeds with the
record `www.example.com. CNAME lb.example.net.`, and the endpoint that
`Records` returns for it is named `www.example.com`, not `www.example.com.`;
so it is not the case that every endpoint has the name, type and records of
its record verbatim. -/
theorem records_not_verbatim_counterexample :
    ((listingClient [dottedRecord]).DnsRecords 0).1.2 = none ∧
      ((PluralProvider.mk (listingClient [dottedRecord])).Records 0).1.1.map
          (fun e => (e.DNSName, e.RecordType, e.Targets)) =
        [("www.example.com", "CNAME", ["lb.example.net"])] ∧
      ¬ (∀ (i : Nat) (r : DnsRecord),
          ((listingClient [dottedRecord]).DnsRecords 0).1.1[i]? = some r →
          ∃ e : Endpoint,
            ((PluralProvider.mk (listingClient [dottedRecord])).Records 0).1.1[i]? =
                some e ∧
              e.DNSName = r.Name ∧ e.RecordType = r.Type_ ∧ e.Targets = r.Records) := by
  refine ⟨rfl, by decide, ?_⟩
  intro hall
  obtain ⟨e, he, hname, _, _⟩ := hall 0 dottedRecord rfl
  have hval : ((PluralProvider.mk (listingClient [dottedRecord])).Records 0).1.1[0]? =
      some (NewEndpoint "www.example.com." "CNAME" ["lb.example.net."]) := by
    decide
  rw [hval] at he
  cases he
  revert hname
  decide

/-- C4, amended: when the client's list call succeeds, `Records` returns no
error and as many endpoints as there are listed records, in the same order;
the endpoint at position `i` has the type of the record at position `i` as
given, and its name and each of its records with one trailing dot removed; so
a name without a trailing dot, and records without trailing dots, are copied
as they are. -/
theorem records_strips_trailing_dot {σ : Type} (p : PluralProvider σ) (s : σ)
    (h : (p.Client.DnsRecords s).1.2 = none) :
    (p.Records s).1.2 = none ∧
      (p.Records s).1.1.length = (p.Client.DnsRecords s).1.1.length ∧
      ∀ (i : Nat) (r : DnsRecord), (p.Client.DnsRecords s).1.1[i]? = some r →
        ∃ e : Endpoint, (p.Records s).1.1[i]? = some e ∧
          e.DNSName = TrimSuffix r.Name "." ∧ e.RecordType = r.Type_ ∧
          e.Targets = r.Records.map (fun t => TrimSuffix t ".") ∧
          (HasSuffix r.Name "." = false → e.DNSName = r.Name) ∧
          ((∀ t ∈ r.Records, HasSuffix t "." = false) → e.Targets = r.Records) := by
  refine ⟨?_, ?_, ?_⟩
  · simp [PluralProvider.Records, h]
  · simp [records_eq_map p s h]
  · intro i r hr
    refine ⟨NewEndpoint r.Name r.Type_ r.Records, ?_, rfl, rfl, rfl, ?_, ?_⟩
    · simp [records_eq_map p s h, hr]
    · intro hn
      exact trimSuffix_of_not_hasSuffix r.Name "." hn
    · intro ht
      exact map_trimSuffix_of_not_hasSuffix r.Records "." ht

/-- Witness for C4: of the two listed records the first, without trailing
dots, becomes an endpoint with its name and record as given; the second, in
fully qualified form, becomes an endpoint without the trailing dots. -/
theorem records_strips_trailing_dot_witness :
    ((listingClient [exampleRecord, dottedRecord]).DnsRecords 0).1.2 = none ∧
      ((PluralProvider.mk (listingClient [exampleRecord, dottedRecord])).Records 0).1.2 =
        none ∧
      ((PluralProvider.mk (listingClient [exampleRecord, dottedRecord])).Records
        0).1.1.length = 2 ∧
      (∃ e : Endpoint,
        ((PluralProvider.mk (listingClient [exampleRecord, dottedRecord])).Records
            0).1.1[0]? = some e ∧
          e.DNSName = TrimSuffix "a.example.com" "." ∧ e.RecordType = "A" ∧
          e.Targets = ["1.2.3.4"].map (fun t => TrimSuffix t ".") ∧
          (HasSuffix "a.example.com" "." = false → e.DNSName = "a.example.com") ∧
          ((∀ t ∈ ["1.2.3.4"], HasSuffix t "." = false) → e.Targets = ["1.2.3.4"])) ∧
      (∃ e : Endpoint,
        ((PluralProvider.mk (listingClient [exampleRecord, dottedRecord])).Records
            0).1.1[1]? = some e ∧
          e.DNSName = TrimSuffix "www.example.com." "." ∧ e.RecordType = "CNAME" ∧
          e.Targets = ["lb.example.net."].map (fun t => TrimSuffix t ".") ∧
          (HasSuffix "www.example.com." "." = false → e.DNSName = "www.example.com.") ∧
          ((∀ t ∈ ["lb.example.net."], HasSuffix t "." = false) →
            e.Targets = ["lb.example.net."])) ∧
      HasSuffix "a.example.com" "." = false ∧
      TrimSuffix "www.example.com." "." = "www.example.com" :=
  ⟨rfl,
    (records_strips_trailing_dot
      (PluralProvider.mk (listingClient [exampleRecord, dottedRecord])) 0 rfl).1,
    (records_strips_trailing_dot
      (PluralProvider.mk (listingClient [exampleRecord, dottedRecord])) 0 rfl).2.1,
    (records_strips_trailing_dot
      (PluralProvider.mk (listingClient [exampleRecord, dottedRecord])) 0 rfl).2.2 0
      exampleRecord rfl,
    (records_strips_trailing_dot
      (PluralProvider.mk (listingClient [exampleRecord, dottedRecord])) 0 rfl).2.2 1
      dottedRecord rfl,
    by decide, by decide⟩

/-- C5: `Records` returns exactly the error of the client's list call (so it
fails exactly when the list call fails), and when that error is not nil it
returns no endpoints at all, whatever record list came with the error. -/
theorem records_fails_iff_list_fails {σ : Type} (p : PluralProvider σ) (s : σ) :
    (p.Records s).1.2 = (p.Client.DnsRecords s).1.2 ∧
      ((p.Client.DnsRecords s).1.2 ≠ none → (p.Records s).1.1 = []) := by
  cases h : (p.Client.DnsRecords s).1.2 <;> simp [PluralProvider.Records, h]


/-- Witness for C5: a list call that returns a record together with an error
makes `Records` return that error and no endpoint. -/
theorem records_fails_iff_list_fails_witness :
    ((failingAt 0).DnsRecords 0).1 = ([exampleRecord], some (GoError.mk "boom")) ∧
      ((PluralProvider.mk (failingAt 0)).Records 0).1.2 = some (GoError.mk "boom") ∧
      ((PluralProvider.mk (failingAt 0)).Records 0).1.1 = [] :=
  ⟨rfl, (records_fails_iff_list_fails (PluralProvider.mk (failingAt 0)) 0).1,
    (records_fails_iff_list_fails (PluralProvider.mk (failingAt 0)) 0).2 (by decide)⟩

/-- C6: the number of changes that `ApplyChanges` builds is the number of
endpoints in `Create` plus the number in `UpdateNew` plus the number in
`Delete`. -/
theorem buildChanges_length (diffs : Changes) :
    (buildChanges diffs).length =
      diffs.Create.length + diffs.UpdateNew.length + diffs.Delete.length := by
  simp [buildChanges_eq, Nat.add_assoc]

/-- C7: every delete change that `ApplyChanges` builds has an empty target
list, whatever targets the endpoints of the diff carry. -/
theorem delete_change_has_no_targets (diffs : Changes) (change : RecordChange)
    (hmem : change ∈ buildChanges diffs) (hdel : change.Action = DeleteAction) :
    change.Record.Records = [] := by
  rw [buildChanges_eq] at hmem
  simp only [List.mem_append, List.mem_map] at hmem
  rcases hmem with (⟨e, _, rfl⟩ | ⟨e, _, rfl⟩) | ⟨e, _, rfl⟩
  · exact absurd hdel createAction_ne_deleteAction
  · exact absurd hdel createAction_ne_deleteAction
  · rfl


/-- Witness for C7: the endpoint deleted by `deleteDiff` carries a target, the
delete change built for it carries none. -/
theorem delete_change_has_no_targets_witness :
    endpointB.Targets = ["a.example.com"] ∧
      RecordChange.mk "d" (DnsRecord.mk "b.example.com" "CNAME" []) ∈
        buildChanges deleteDiff ∧
      (RecordChange.mk "d" (DnsRecord.mk "b.example.com" "CNAME" [])).Action =
        DeleteAction ∧
      (RecordChange.mk "d" (DnsRecord.mk "b.example.com" "CNAME" [])).Record.Records = [] :=
  ⟨rfl, by decide, rfl,
    delete_change_has_no_targets deleteDiff
      (RecordChange.mk "d" (DnsRecord.mk "b.example.com" "CNAME" [])) (by decide) rfl⟩

/-- C8: for a diff whose `Create`, `UpdateNew` and `Delete` are all empty the
change list built is empty, and `ApplyChanges` returns no error, makes no
client call and leaves the client as it was, for every client. -/
theorem applyChanges_empty_diff {σ : Type} (p : PluralProvider σ) (diffs : Changes)
    (s : σ) (log : List Call)
    (hc : diffs.Create = []) (hu : diffs.UpdateNew = []) (hd : diffs.Delete = []) :
    buildChanges diffs = [] ∧
      p.recording.ApplyChanges diffs (s, log) = (none, (s, log)) ∧
      p.ApplyChanges diffs s = (none, s) := by
  have hb : buildChanges diffs = [] := by
    simp [buildChanges_eq, hc, hu, hd]
  refine ⟨hb, ?_, ?_⟩
  · simp [PluralProvider.ApplyChanges, hb, PluralProvider.applyChanges]
  · simp [PluralProvider.ApplyChanges, hb, PluralProvider.applyChanges]


/-- Witness for C8: a diff that only has an old update side builds no change
and makes no call, even on a client whose next call would fail. -/
theorem applyChanges_empty_diff_witness :
    idleDiff.Create = [] ∧ idleDiff.UpdateNew = [] ∧ idleDiff.Delete = [] ∧
      (buildChanges idleDiff = [] ∧
        (PluralProvider.mk (failingAt 0)).recording.ApplyChanges idleDiff (0, []) =
          (none, (0, [])) ∧
        (PluralProvider.mk (failingAt 0)).ApplyChanges idleDiff 0 = (none, 0)) :=
  ⟨rfl, rfl, rfl,
    applyChanges_empty_diff (PluralProvider.mk (failingAt 0)) idleDiff 0 [] rfl rfl rfl⟩

/-- C9: when an endpoint of `Create` and an endpoint of `Delete` have the same
name and type, the change list holds both the create change and the delete
change for that name and type; and when all client calls succeed,
`ApplyChanges` returns no error and both calls are made, the create call
before the delete call. -/
theorem applyChanges_no_deduplication {σ : Type} (p : PluralProvider σ)
    (diffs : Changes) (s : σ) (e1 e2 : Endpoint)
    (h1 : e1 ∈ diffs.Create) (h2 : e2 ∈ diffs.Delete)
    (hname : e1.DNSName = e2.DNSName) (htype : e1.RecordType = e2.RecordType) :
    RecordChange.mk CreateAction (DnsRecord.mk e1.DNSName e1.RecordType e1.Targets)
        ∈ buildChanges diffs ∧
      RecordChange.mk DeleteAction (DnsRecord.mk e1.DNSName e1.RecordType [])
        ∈ buildChanges diffs ∧
      (CallsSucceed p.Client ((buildChanges diffs).map expectedCall) s →
        ∃ before between after : List Call,
          p.recording.ApplyChanges diffs (s, []) =
            (none, (stateAfter p.Client ((buildChanges diffs).map expectedCall) s,
              before ++ Call.create (DnsRecord.mk e1.DNSName e1.RecordType e1.Targets) ::
                between ++ Call.delete e1.DNSName e1.RecordType :: after))) := by
  have hdel : deleteChange e2 =
      RecordChange.mk DeleteAction (DnsRecord.mk e1.DNSName e1.RecordType []) := by
    simp [deleteChange, hname, htype]
  refine ⟨?_, ?_, ?_⟩
  · rw [buildChanges_eq]
    simp only [List.mem_append, List.mem_map]
    exact Or.inl (Or.inl ⟨e1, h1, rfl⟩)
  · rw [buildChanges_eq, ← hdel]
    simp only [List.mem_append, List.mem_map]
    exact Or.inr ⟨e2, h2, rfl⟩
  · intro hs
    obtain ⟨c1, c2, hcs⟩ := List.append_of_mem h1
    obtain ⟨d1, d2, hds⟩ := List.append_of_mem h2
    have h := applyChanges_recording_success p (buildChanges diffs) s []
      (createOrDelete_buildChanges diffs) hs
    refine ⟨c1.map (fun e => expectedCall (createChange e)),
      c2.map (fun e => expectedCall (createChange e)) ++
        diffs.UpdateNew.map (fun e => expectedCall (createChange e)) ++
        d1.map (fun e => expectedCall (deleteChange e)),
      d2.map (fun e => expectedCall (deleteChange e)), ?_⟩
    rw [PluralProvider.ApplyChanges, h]
    congr 2
    rw [buildChanges_eq, hcs, hds]
    simp [Function.comp_def, expectedCall_createChange, expectedCall_deleteChange, hname,
      htype]


/-- Witness for C9: `clashDiff` creates and deletes `a.example.com A`; both
changes are built and, on a client whose calls succeed, both calls are made. -/
theorem applyChanges_no_deduplication_witness :
    endpointA ∈ clashDiff.Create ∧ endpointA2 ∈ clashDiff.Delete ∧
      endpointA.DNSName = endpointA2.DNSName ∧
      endpointA.RecordType = endpointA2.RecordType ∧
      CallsSucceed (failingAt 5) ((buildChanges clashDiff).map expectedCall) 0 ∧
      RecordChange.mk CreateAction (DnsRecord.mk "a.example.com" "A" ["1.2.3.4"])
        ∈ buildChanges clashDiff ∧
      RecordChange.mk DeleteAction (DnsRecord.mk "a.example.com" "A" [])
        ∈ buildChanges clashDiff ∧
      ∃ before between after : List Call,
        (PluralProvider.mk (failingAt 5)).recording.ApplyChanges clashDiff (0, []) =
          (none, (2,
            before ++ Call.create (DnsRecord.mk "a.example.com" "A" ["1.2.3.4"]) ::
              between ++ Call.delete "a.example.com" "A" :: after)) :=
  ⟨by decide, by decide, rfl, rfl, clashDiff_succeeds_on_failingAt_five,
    (applyChanges_no_deduplication (PluralProvider.mk (failingAt 5)) clashDiff 0
      endpointA endpointA2 (by decide) (by decide) rfl rfl).1,
    (applyChanges_no_deduplication (PluralProvider.mk (failingAt 5)) clashDiff 0
      endpointA endpointA2 (by decide) (by decide) rfl rfl).2.1,
    (applyChanges_no_deduplication (PluralProvider.mk (failingAt 5)) clashDiff 0
      endpointA endpointA2 (by decide) (by decide) rfl rfl).2.2
      clashDiff_succeeds_on_failingAt_five⟩

/-- C10: `AdjustEndpoints` returns the sequence of endpoints it is given,
unchanged; in particular the empty sequence for the empty sequence. -/
theorem adjustEndpoints_identity {σ : Type} (p : PluralProvider σ)
    (endpoints : List Endpoint) :
    p.AdjustEndpoints endpoints = endpoints ∧ p.AdjustEndpoints [] = [] := by
  exact ⟨rfl, rfl⟩

/-- C11: `PropertyValuesEqual` is true exactly when `previous` and `current`
are the same string, and its result is the same for every property name. -/
theorem propertyValuesEqual_iff_same_string {σ : Type} (p : PluralProvider σ)
    (name previous current : String) :
    (p.PropertyValuesEqual name previous current = true ↔ previous = current) ∧
      ∀ other : String,
        p.PropertyValuesEqual other previous current =
          p.PropertyValuesEqual name previous current := by
  constructor
  · simp [PluralProvider.PropertyValuesEqual, BaseProvider.PropertyValuesEqual]
  · intro other
    rfl

/-- C12: when the lookup of `PLURAL_ACCESS_TOKEN` yields the empty string,
`NewPluralProvider` returns the configuration error and no provider and does
not run the client constructor; when it yields a non-empty token, it returns
no error and a provider whose client is the one constructed from exactly that
token, the looked-up endpoint, the cluster and the provider identifier. -/
theorem newPluralProvider_requires_token {σ τ : Type} (getenv : String → String)
    (NewClient : Config → τ → Client σ × τ) (cluster provider : String) (t : τ) :
    (getenv "PLURAL_ACCESS_TOKEN" = "" →
        NewPluralProvider getenv NewClient cluster provider t =
          ((none, some missingTokenError), t)) ∧
      (getenv "PLURAL_ACCESS_TOKEN" ≠ "" →
        NewPluralProvider getenv NewClient cluster provider t =
          ((some (PluralProvider.mk
              (NewClient (Config.mk (getenv "PLURAL_ACCESS_TOKEN")
                (getenv "PLURAL_ENDPOINT") cluster provider) t).1), none),
            (NewClient (Config.mk (getenv "PLURAL_ACCESS_TOKEN")
              (getenv "PLURAL_ENDPOINT") cluster provider) t).2)) := by
  constructor
  · intro h
    simp [NewPluralProvider, h]
  · intro h
    simp [NewPluralProvider, h]

/-- Witness for C12: without a token the constructor that notes its
configurations has noted nothing; with the token `secret` it has noted one
configuration, made of that token, the endpoint and the two identifiers. -/
theorem newPluralProvider_requires_token_witness :
    envWithoutToken "PLURAL_ACCESS_TOKEN" = "" ∧
      NewPluralProvider envWithoutToken notingNewClient "prod" "aws" [] =
        ((none, some missingTokenError), []) ∧
      envWithToken "PLURAL_ACCESS_TOKEN" ≠ "" ∧
      NewPluralProvider envWithToken notingNewClient "prod" "aws" [] =
        ((some (PluralProvider.mk (failingAt 5)), none),
          [Config.mk "secret" "https://app.plural.sh" "prod" "aws"]) :=
  ⟨by decide,
    (newPluralProvider_requires_token envWithoutToken notingNewClient "prod" "aws" []).1
      (by decide),
    by decide,
    (newPluralProvider_requires_token envWithToken notingNewClient "prod" "aws" []).2
      (by decide)⟩

/-- C13: two diffs that agree on `Create`, `UpdateNew` and `Delete` (and may
differ in `UpdateOld`) build the same change list, and `ApplyChanges` makes
the same client calls and returns the same result on both. -/
theorem applyChanges_ignores_updateOld {σ : Type} (p : PluralProvider σ)
    (d1 d2 : Changes) (s : σ) (log : List Call)
    (hc : d1.Create = d2.Create) (hu : d1.UpdateNew = d2.UpdateNew)
    (hd : d1.Delete = d2.Delete) :
    buildChanges d1 = buildChanges d2 ∧
      p.recording.ApplyChanges d1 (s, log) = p.recording.ApplyChanges d2 (s, log) ∧
      p.ApplyChanges d1 s = p.ApplyChanges d2 s := by
  have hb : buildChanges d1 = buildChanges d2 := by
    rw [buildChanges_eq, buildChanges_eq, hc, hu, hd]
  exact ⟨hb, by rw [PluralProvider.ApplyChanges, PluralProvider.ApplyChanges, hb],
    by rw [PluralProvider.ApplyChanges, PluralProvider.ApplyChanges, hb]⟩

/-- Witness for C13: the two example updates differ in their old side only. -/
theorem applyChanges_ignores_updateOld_witness :
    updateDiff.UpdateOld ≠ updateDiffOld.UpdateOld ∧
      updateDiff.Create = updateDiffOld.Create ∧
      updateDiff.UpdateNew = updateDiffOld.UpdateNew ∧
      updateDiff.Delete = updateDiffOld.Delete ∧
      (buildChanges updateDiff = buildChanges updateDiffOld ∧
        (PluralProvider.mk (failingAt 5)).recording.ApplyChanges updateDiff (0, []) =
          (PluralProvider.mk (failingAt 5)).recording.ApplyChanges updateDiffOld (0, []) ∧
        (PluralProvider.mk (failingAt 5)).ApplyChanges updateDiff 0 =
          (PluralProvider.mk (failingAt 5)).ApplyChanges updateDiffOld 0) :=
  ⟨by decide, rfl, rfl, rfl,
    applyChanges_ignores_updateOld (PluralProvider.mk (failingAt 5)) updateDiff
      updateDiffOld 0 [] rfl rfl rfl⟩

/-- C14: two change lists that are equal except for the target lists carried
by their delete changes make `applyChanges` issue the same sequence of client
calls and return the same result. -/
theorem applyChanges_ignores_delete_targets {σ : Type} (p : PluralProvider σ)
    (xs ys : List RecordChange) (s : σ) (log : List Call)
    (h : List.Forall₂ SameButDeleteTargets xs ys) :
    p.recording.applyChanges xs (s, log) = p.recording.applyChanges ys (s, log) ∧
      p.applyChanges xs s = p.applyChanges ys s :=
  ⟨applyChanges_same_but_delete_targets p.recording xs ys (s, log) h,
    applyChanges_same_but_delete_targets p xs ys s h⟩

/-- Witness for C14: the example changes with and without targets on the
delete change, on a client whose second call fails. -/
theorem applyChanges_ignores_delete_targets_witness :
    exampleChanges ≠ exampleChangesBare ∧
      List.Forall₂ SameButDeleteTargets exampleChanges exampleChangesBare ∧
      ((PluralProvider.mk (failingAt 1)).recording.applyChanges exampleChanges (0, []) =
          (PluralProvider.mk (failingAt 1)).recording.applyChanges exampleChangesBare
            (0, []) ∧
        (PluralProvider.mk (failingAt 1)).applyChanges exampleChanges 0 =
          (PluralProvider.mk (failingAt 1)).applyChanges exampleChangesBare 0) :=
  ⟨by decide,
    List.Forall₂.cons (Or.inl rfl)
      (List.Forall₂.cons (Or.inr ⟨rfl, rfl, rfl, rfl⟩)
        (List.Forall₂.cons (Or.inl rfl) List.Forall₂.nil)),
    applyChanges_ignores_delete_targets (PluralProvider.mk (failingAt 1)) exampleChanges
      exampleChangesBare 0 []
      (List.Forall₂.cons (Or.inl rfl)
        (List.Forall₂.cons (Or.inr ⟨rfl, rfl, rfl, rfl⟩)
          (List.Forall₂.cons (Or.inl rfl) List.Forall₂.nil)))⟩

/-- C15: in the change list that `ApplyChanges` builds every change has the
action create or delete, the list is a block of create changes followed by a
block of delete changes, and so no delete change stands before a create
change. -/
theorem buildChanges_creates_then_deletes (diffs : Changes) :
    (∀ change ∈ buildChanges diffs,
        change.Action = CreateAction ∨ change.Action = DeleteAction) ∧
      (∃ creates deletes : List RecordChange,
        buildChanges diffs = creates ++ deletes ∧
          (∀ c ∈ creates, c.Action = CreateAction) ∧
          (∀ d ∈ deletes, d.Action = DeleteAction)) ∧
      ∀ (i j : Nat) (a b : RecordChange), i < j →
        (buildChanges diffs)[i]? = some a → (buildChanges diffs)[j]? = some b →
        a.Action = DeleteAction → b.Action ≠ CreateAction := by
  have hcs : ∀ c ∈ diffs.Create.map createChange ++ diffs.UpdateNew.map createChange,
      c.Action = CreateAction := by
    intro c hc
    simp only [List.mem_append, List.mem_map] at hc
    rcases hc with ⟨e, _, rfl⟩ | ⟨e, _, rfl⟩ <;> rfl
  have hds : ∀ d ∈ diffs.Delete.map deleteChange, d.Action = DeleteAction := by
    intro d hd
    simp only [List.mem_map] at hd
    rcases hd with ⟨e, _, rfl⟩
    rfl
  refine ⟨createOrDelete_buildChanges diffs, ⟨_, _, buildChanges_eq diffs, hcs, hds⟩, ?_⟩
  intro i j a b hij ha hb hdel hcreate
  rw [buildChanges_eq] at ha hb
  have := no_delete_before_create _ _ hcs hds i j a b hij ha hb hdel
  rw [hcreate] at this
  exact createAction_ne_deleteAction this

/-- Witness for C15: in the list built for `mixedDiff` the change at position
1 is a delete change and the change after it is not a create change. -/
theorem buildChanges_creates_then_deletes_witness :
    (buildChanges mixedDiff)[1]? =
        some (RecordChange.mk "d" (DnsRecord.mk "b.example.com" "CNAME" [])) ∧
      (buildChanges mixedDiff)[2]? =
        some (RecordChange.mk "d" (DnsRecord.mk "a.example.com" "A" [])) ∧
      (RecordChange.mk "d" (DnsRecord.mk "a.example.com" "A" [])).Action ≠ CreateAction :=
  ⟨by decide, by decide,
    (buildChanges_creates_then_deletes mixedDiff).2.2 1 2
      (RecordChange.mk "d" (DnsRecord.mk "b.example.com" "CNAME" []))
      (RecordChange.mk "d" (DnsRecord.mk "a.example.com" "A" []))
      (by decide) (by decide) (by decide) rfl⟩

/-- C16: two diffs whose endpoints in `Create`, in `UpdateNew` and in `Delete`
agree pairwise on name, record type and targets (and may differ in every other
endpoint attribute) build the same change list, and `ApplyChanges` makes the
same client calls and returns the same result on both. -/
theorem applyChanges_reads_name_type_targets_only {σ : Type} (p : PluralProvider σ)
    (d1 d2 : Changes) (s : σ) (log : List Call)
    (hc : List.Forall₂ SameRecordData d1.Create d2.Create)
    (hu : List.Forall₂ SameRecordData d1.UpdateNew d2.UpdateNew)
    (hd : List.Forall₂ SameRecordData d1.Delete d2.Delete) :
    buildChanges d1 = buildChanges d2 ∧
      p.recording.ApplyChanges d1 (s, log) = p.recording.ApplyChanges d2 (s, log) ∧
      p.ApplyChanges d1 s = p.ApplyChanges d2 s := by
  have hcreate : ∀ a b, SameRecordData a b → createChange a = createChange b := by
    intro a b hab
    simp [createChange, hab.1, hab.2.1, hab.2.2]
  have hdelete : ∀ a b, SameRecordData a b → deleteChange a = deleteChange b := by
    intro a b hab
    simp [deleteChange, hab.1, hab.2.1]
  have hb : buildChanges d1 = buildChanges d2 := by
    rw [buildChanges_eq, buildChanges_eq,
      map_eq_of_related SameRecordData createChange hcreate _ _ hc,
      map_eq_of_related SameRecordData createChange hcreate _ _ hu,
      map_eq_of_related SameRecordData deleteChange hdelete _ _ hd]
  exact ⟨hb, by rw [PluralProvider.ApplyChanges, PluralProvider.ApplyChanges, hb],
    by rw [PluralProvider.ApplyChanges, PluralProvider.ApplyChanges, hb]⟩

/-- Witness for C16: `fullDiff` and `fullDiffOther` differ in the TTL, the
labels, the set identifier and the provider properties of the created
endpoint, and in nothing the provider reads. -/
theorem applyChanges_reads_name_type_targets_only_witness :
    fullDiff ≠ fullDiffOther ∧
      List.Forall₂ SameRecordData fullDiff.Create fullDiffOther.Create ∧
      List.Forall₂ SameRecordData fullDiff.UpdateNew fullDiffOther.UpdateNew ∧
      List.Forall₂ SameRecordData fullDiff.Delete fullDiffOther.Delete ∧
      (buildChanges fullDiff = buildChanges fullDiffOther ∧
        (PluralProvider.mk (failingAt 5)).recording.ApplyChanges fullDiff (0, []) =
          (PluralProvider.mk (failingAt 5)).recording.ApplyChanges fullDiffOther (0, []) ∧
        (PluralProvider.mk (failingAt 5)).ApplyChanges fullDiff 0 =
          (PluralProvider.mk (failingAt 5)).ApplyChanges fullDiffOther 0) :=
  ⟨by decide,
    List.Forall₂.cons ⟨rfl, rfl, rfl⟩ List.Forall₂.nil,
    List.Forall₂.cons ⟨rfl, rfl, rfl⟩ List.Forall₂.nil,
    List.Forall₂.cons ⟨rfl, rfl, rfl⟩ List.Forall₂.nil,
    applyChanges_reads_name_type_targets_only (PluralProvider.mk (failingAt 5)) fullDiff
      fullDiffOther 0 []
      (List.Forall₂.cons ⟨rfl, rfl, rfl⟩ List.Forall₂.nil)
      (List.Forall₂.cons ⟨rfl, rfl, rfl⟩ List.Forall₂.nil)
      (List.Forall₂.cons ⟨rfl, rfl, rfl⟩ List.Forall₂.nil)⟩

/-- C17: `applyChanges` on `xs ++ ys` is `applyChanges` on `xs` followed, only
when that returned no error, by `applyChanges` on `ys` from the client state
left by `xs`; when `xs` returns an error, that error is the result, with the
client calls of `xs` and none for `ys`.  The second part states the same with
the journal of client calls. -/
theorem applyChanges_sequential_composition {σ : Type} (p : PluralProvider σ)
    (xs ys : List RecordChange) (s : σ) (log : List Call) :
    (p.applyChanges (xs ++ ys) s =
        match p.applyChanges xs s with
        | (some err, s1) => (some err, s1)
        | (none, s1) => p.applyChanges ys s1) ∧
      (p.recording.applyChanges (xs ++ ys) (s, log) =
        match p.recording.applyChanges xs (s, log) with
        | (some err, st) => (some err, st)
        | (none, st) => p.recording.applyChanges ys st) := by
  refine ⟨applyChanges_append p xs ys s, ?_⟩
  rw [applyChanges_append]
  rcases p.recording.applyChanges xs (s, log) with ⟨r, st⟩
  cases r <;> rfl

/-- C18: changes whose action is neither `"c"` nor `"d"` are passed over:
wherever they stand in a list, `applyChanges` makes no client call for them,
reports no error for them and goes on with the next change; a list made of
such changes only returns no error, with no client call. -/
theorem applyChanges_passes_over_other_actions {σ : Type} (p : PluralProvider σ)
    (before skipped rest : List RecordChange) (s : σ) (log : List Call)
    (h : ∀ change ∈ skipped, change.Action ≠ "c" ∧ change.Action ≠ "d") :
    p.recording.applyChanges (before ++ skipped ++ rest) (s, log) =
        p.recording.applyChanges (before ++ rest) (s, log) ∧
      p.applyChanges (before ++ skipped ++ rest) s = p.applyChanges (before ++ rest) s ∧
      p.recording.applyChanges skipped (s, log) = (none, (s, log)) ∧
      p.applyChanges skipped s = (none, s) := by
  have h2 : ∀ change ∈ skipped, OtherAction change := h
  refine ⟨applyChanges_skip_inside p.recording before skipped rest (s, log) h2,
    applyChanges_skip_inside p before skipped rest s h2, ?_, ?_⟩
  · have := applyChanges_skip_all p.recording skipped [] (s, log) h2
    simpa [PluralProvider.applyChanges] using this
  · have := applyChanges_skip_all p skipped [] s h2
    simpa [PluralProvider.applyChanges] using this

/-- Witness for C18: two changes with the actions `"u"` and `""` between a
create change and a delete change, on a client whose calls succeed: two calls
are made, and none for the two changes alone. -/
theorem applyChanges_passes_over_other_actions_witness :
    (∀ change ∈ unknownChanges, change.Action ≠ "c" ∧ change.Action ≠ "d") ∧
      (PluralProvider.mk (failingAt 5)).recording.applyChanges
          (exampleChanges.take 1 ++ unknownChanges ++ exampleChanges.drop 1) (0, []) =
        (PluralProvider.mk (failingAt 5)).recording.applyChanges
          (exampleChanges.take 1 ++ exampleChanges.drop 1) (0, []) ∧
      (PluralProvider.mk (failingAt 5)).applyChanges
          (exampleChanges.take 1 ++ unknownChanges ++ exampleChanges.drop 1) 0 =
        (PluralProvider.mk (failingAt 5)).applyChanges
          (exampleChanges.take 1 ++ exampleChanges.drop 1) 0 ∧
      (PluralProvider.mk (failingAt 0)).recording.applyChanges unknownChanges (0, []) =
        (none, (0, [])) ∧
      (PluralProvider.mk (failingAt 0)).applyChanges unknownChanges 0 = (none, 0) :=
  ⟨by decide,
    (applyChanges_passes_over_other_actions (PluralProvider.mk (failingAt 5))
      (exampleChanges.take 1) unknownChanges (exampleChanges.drop 1) 0 [] (by decide)).1,
    (applyChanges_passes_over_other_actions (PluralProvider.mk (failingAt 5))
      (exampleChanges.take 1) unknownChanges (exampleChanges.drop 1) 0 [] (by decide)).2.1,
    (applyChanges_passes_over_other_actions (PluralProvider.mk (failingAt 0))
      [] unknownChanges [] 0 [] (by decide)).2.2.1,
    (applyChanges_passes_over_other_actions (PluralProvider.mk (failingAt 0))
      [] unknownChanges [] 0 [] (by decide)).2.2.2⟩

end Plural
